import Mathlib

/-!
Shallow embedding of the EMA (exponential moving average) parameter-tracking
component of this repository, together with the call sites in the training
script that consume it.

Source files embedded:
  * `jeffnet/linen/ema_state.py` — the `EmaState` flax struct dataclass with
    its `create` staticmethod and `update` method.
  * `tf_linen_train.py` — the call sites `EmaState.create(config.ema_decay,
    optimizer.target, model_state)` in `create_train_state`,
    `ema.update(new_optimizer.target, new_model_state)` in `train_step`, and
    the attribute reads `state.ema.params` / `state.ema.model_state` in
    `eval_step_ema`.

Modelling choices:
  * Tensors are rank-1 lists of rationals (`List ℚ`); exact rational
    arithmetic stands in for the framework's numeric arrays.
  * Parameter mappings (`flax.core.FrozenDict` pytrees, as flattened by
    `jax`) are association lists `List (String × Tensor)` in the canonical
    key order that `jax` flattening produces.
  * `jax.tree_multimap` first compares the two tree structures (the key
    lists) and then applies the leaf function pairwise; a structure mismatch
    is an error, mirroring the `ValueError` raised by `jax`.
  * Elementwise arithmetic on two tensors follows numpy broadcasting
    restricted to rank 1: equal lengths combine pointwise, a length-1
    operand is broadcast against the other, and any other length mismatch
    is an error.
  * Python calls with the wrong number of positional arguments, and reads
    of attributes a class does not define, are modelled explicitly as
    `TypeError` / `AttributeError` values.
-/

/-- A rank-1 numeric tensor with exact rational entries. -/
abbrev Tensor : Type := List ℚ

/-- A flattened parameter pytree: keys in canonical order, one tensor each. -/
abbrev Variables : Type := List (String × Tensor)

/-- Errors surfaced by the embedded framework operations. -/
inductive EmaError : Type where
  | treeStructureMismatch : EmaError
  | broadcastError : EmaError
deriving DecidableEq, Repr

deriving instance DecidableEq for Except

/-- Errors raised by the embedded Python runtime at call/attribute sites. -/
inductive PyError : Type where
  | typeError : PyError
  | attributeError : PyError
deriving DecidableEq, Repr

/-- Numpy-style binary broadcasting on rank-1 tensors: equal lengths combine
pointwise; a single-element tensor broadcasts against the other operand;
any other length mismatch fails. -/
def bcastOp (f : ℚ → ℚ → ℚ) (xs ys : Tensor) : Except EmaError Tensor :=
  if xs.length = ys.length then .ok (List.zipWith f xs ys)
  else
    match xs, ys with
    | [x], ys => .ok (ys.map (fun y => f x y))
    | xs, [y] => .ok (xs.map (fun x => f x y))
    | _, _ => .error .broadcastError

/-- `jax.tree_map` over a flat parameter dict: apply `f` to every leaf. -/
def tree_map (f : Tensor → Tensor) (v : Variables) : Variables :=
  v.map (fun kt => (kt.1, f kt.2))

/-- Apply a fallible binary leaf function to corresponding leaves. -/
def zipLeaves (f : Tensor → Tensor → Except EmaError Tensor) :
    List Tensor → List Tensor → Except EmaError (List Tensor)
  | [], [] => .ok []
  | t₁ :: r₁, t₂ :: r₂ => do
    let t ← f t₁ t₂
    let r ← zipLeaves f r₁ r₂
    pure (t :: r)
  | _, _ => .error .treeStructureMismatch

/-- `jax.tree_multimap` over two flat parameter dicts: the tree structures
(key lists) must agree, then the leaf function is applied pairwise and the
tree is rebuilt. A structure mismatch is an error, as in `jax`. -/
def tree_multimap (f : Tensor → Tensor → Except EmaError Tensor)
    (v₁ v₂ : Variables) : Except EmaError Variables :=
  if v₁.map Prod.fst = v₂.map Prod.fst then
    (zipLeaves f (v₁.map Prod.snd) (v₂.map Prod.snd)).map
      (fun ts => List.zip (v₁.map Prod.fst) ts)
  else .error .treeStructureMismatch

/-- `EmaState` from `jeffnet/linen/ema_state.py`: a flax struct dataclass
with fields `decay` (default `0.`) and `variables` (default `None`). -/
structure EmaState : Type where
  decay : ℚ := 0
  variables_ : Option Variables := none
deriving DecidableEq, Repr

/-- The leaf function of `EmaState.update`:
`lambda ema, p: ema * self.decay + (1. - self.decay) * p`. The two scalar
multiplications map over each operand; the addition broadcasts. -/
def emaLeaf (decay : ℚ) (ema p : Tensor) : Except EmaError Tensor :=
  bcastOp (fun a b => a + b)
    (ema.map (fun x => x * decay)) (p.map (fun x => (1 - decay) * x))

/-- `EmaState.create(decay, variables)`: returns the default (disabled)
state when `decay == 0.`, otherwise copies the variables tree with
`jax.tree_map(lambda x: x, variables)` and stores it as the shadow. -/
def EmaState.create (decay : ℚ) (variables_ : Variables) : EmaState :=
  if decay = 0 then { }
  else ⟨decay, some (tree_map (fun x => x) variables_)⟩

/-- `EmaState.update(self, new_variables)`: when `decay == 0.` returns
`self.replace(variables=None)`; otherwise combines the stored shadow with
the new variables through `jax.tree_multimap` using `emaLeaf`. A stored
shadow of `None` cannot be zipped against a dict, which `jax` reports as a
structure mismatch. -/
def EmaState.update (s : EmaState) (new_variables : Variables) :
    Except EmaError EmaState :=
  if s.decay = 0 then .ok ⟨s.decay, none⟩
  else
    match s.variables_ with
    | none => .error .treeStructureMismatch
    | some v =>
      (tree_multimap (emaLeaf s.decay) v new_variables).map
        (fun nv => ⟨s.decay, some nv⟩)

/-- The call `ema.update(new_optimizer.target, new_model_state)` at
`tf_linen_train.py` line 146, modelled as the one-parameter method
`EmaState.update` invoked on a positional argument tuple: exactly one
argument binds `new_variables`; any other count is a `TypeError`. -/
def callUpdate (s : EmaState) (args : List Variables) :
    Except PyError (Except EmaError EmaState) :=
  match args with
  | [v] => .ok (s.update v)
  | _ => .error .typeError

/-- One positional argument of the `EmaState.create` call site. -/
inductive CreateArg : Type where
  | decayArg : ℚ → CreateArg
  | varsArg : Variables → CreateArg
deriving DecidableEq, Repr

/-- The staticmethod `EmaState.create(decay, variables)` invoked on a
positional argument tuple: exactly two arguments bind `decay` and
`variables`; any other count is a `TypeError` before the body runs. -/
def callCreate (args : List CreateArg) : Except PyError EmaState :=
  match args with
  | [.decayArg d, .varsArg v] => .ok (EmaState.create d v)
  | [_, _] => .ok { }
  | _ => .error .typeError

/-- The call `EmaState.create(config.ema_decay, optimizer.target,
model_state)` at `tf_linen_train.py` line 77 in `create_train_state`:
three positional arguments. -/
def createTrainStateEmaCall (ema_decay : ℚ) (target model_state : Variables) :
    Except PyError EmaState :=
  callCreate [.decayArg ema_decay, .varsArg target, .varsArg model_state]

/-- A Python attribute value read off an `EmaState` instance. -/
inductive PyVal : Type where
  | num : ℚ → PyVal
  | vars : Variables → PyVal
  | noneVal : PyVal
deriving DecidableEq, Repr

/-- Attribute lookup on an `EmaState` instance: the `@struct.dataclass`
declares exactly the fields `decay` and `variables`; any other attribute
name raises `AttributeError`. -/
def EmaState.getattr (s : EmaState) (name : String) : Except PyError PyVal :=
  if name = "decay" then .ok (.num s.decay)
  else if name = "variables" then
    .ok (match s.variables_ with
      | some v => .vars v
      | none => .noneVal)
  else .error .attributeError

/-- Run a sequence of `update` calls from an initial state, stopping at the
first error, as the training loop threads the EMA state step by step. -/
def runUpdates (s : EmaState) (vs : List Variables) :
    Except EmaError EmaState :=
  vs.foldlM EmaState.update s

/-! ### Helper lemmas -/

/-- When the two tensors have the same length, the `update` leaf function
reduces to exact pointwise exponential smoothing. -/
lemma emaLeaf_eq_of_length (d : ℚ) (t₁ t₂ : Tensor) (h : t₁.length = t₂.length) :
    emaLeaf d t₁ t₂ =
      .ok (List.zipWith (fun e p => d * e + (1 - d) * p) t₁ t₂) := by
  have hfun : (fun e p => e * d + (1 - d) * p) =
      (fun e p : ℚ => d * e + (1 - d) * p) := by
    funext e p
    ring
  simp [emaLeaf, bcastOp, h, List.zipWith_map, hfun]

/-- The leaf function fixes every tensor: `d*x + (1-d)*x = x` pointwise. -/
lemma emaLeaf_self (d : ℚ) (t : Tensor) : emaLeaf d t t = .ok t := by
  rw [emaLeaf_eq_of_length d t t rfl, List.zipWith_same]
  have hid : (fun x : ℚ => d * x + (1 - d) * x) = fun x : ℚ => x := by
    funext x
    ring
  rw [hid]
  simp

/-- `zipLeaves` over two leaf lists with pairwise equal lengths succeeds and
produces the pointwise smoothed leaves. -/
lemma zipLeaves_emaLeaf (d : ℚ) (ts₁ ts₂ : List Tensor)
    (h : ts₁.map List.length = ts₂.map List.length) :
    zipLeaves (emaLeaf d) ts₁ ts₂ =
      .ok (List.zipWith
        (fun t₁ t₂ => List.zipWith (fun e p => d * e + (1 - d) * p) t₁ t₂)
        ts₁ ts₂) := by
  induction ts₁ generalizing ts₂ with
  | nil =>
    cases ts₂ with
    | nil => rfl
    | cons t r => simp at h
  | cons t₁ r₁ ih =>
    cases ts₂ with
    | nil => simp at h
    | cons t₂ r₂ =>
      simp only [List.map_cons, List.cons.injEq] at h
      rw [List.zipWith_cons_cons, zipLeaves,
        emaLeaf_eq_of_length d t₁ t₂ h.1, ih r₂ h.2]
      rfl

/-- Rebuilding the tree after zipping leaves is the keyed pointwise zip. -/
lemma zip_fst_zipWith_snd (g : Tensor → Tensor → Tensor) (v w : Variables) :
    List.zip (v.map Prod.fst)
        (List.zipWith g (v.map Prod.snd) (w.map Prod.snd)) =
      List.zipWith (fun kt nt => (kt.1, g kt.2 nt.2)) v w := by
  induction v generalizing w with
  | nil => rfl
  | cons kt r ih =>
    cases w with
    | nil => rfl
    | cons nt w' =>
      simp only [List.map_cons, List.zipWith_cons_cons, List.zip_cons_cons]
      rw [ih w']

/-- `tree_multimap` with the EMA leaf on structurally matching trees with
equal tensor lengths succeeds with the keyed pointwise smoothing. -/
lemma tree_multimap_emaLeaf (d : ℚ) (v w : Variables)
    (hk : v.map Prod.fst = w.map Prod.fst)
    (hl : v.map (fun kt => kt.2.length) = w.map (fun kt => kt.2.length)) :
    tree_multimap (emaLeaf d) v w =
      .ok (List.zipWith
        (fun kt nt =>
          (kt.1, List.zipWith (fun e p => d * e + (1 - d) * p) kt.2 nt.2))
        v w) := by
  have hlen : (v.map Prod.snd).map List.length =
      (w.map Prod.snd).map List.length := by
    simpa [List.map_map, Function.comp] using hl
  rw [tree_multimap, if_pos hk, zipLeaves_emaLeaf d _ _ hlen]
  exact congrArg Except.ok
    (zip_fst_zipWith_snd
      (fun t₁ t₂ => List.zipWith (fun e p => d * e + (1 - d) * p) t₁ t₂) v w)

/-- `tree_multimap` with the EMA leaf of a tree against itself is the
identity. -/
lemma tree_multimap_emaLeaf_self (d : ℚ) (v : Variables) :
    tree_multimap (emaLeaf d) v v = .ok v := by
  rw [tree_multimap_emaLeaf d v v rfl rfl, List.zipWith_same]
  congr 1
  have hpt : (fun kt : String × Tensor =>
      (kt.1, List.zipWith (fun e p => d * e + (1 - d) * p) kt.2 kt.2)) =
      fun kt : String × Tensor => kt := by
    funext kt
    rw [List.zipWith_same]
    have hid : (fun x : ℚ => d * x + (1 - d) * x) = fun x : ℚ => x := by
      funext x
      ring
    rw [hid]
    simp
  rw [hpt]
  simp

/-- A length mismatch in which neither tensor has a single element makes the
leaf function fail: broadcasting cannot reconcile the shapes. -/
lemma emaLeaf_error (d : ℚ) (t₁ t₂ : Tensor) (h : t₁.length ≠ t₂.length)
    (h1 : t₁.length ≠ 1) (h2 : t₂.length ≠ 1) :
    emaLeaf d t₁ t₂ = .error .broadcastError := by
  have hlen : ¬((t₁.map (fun x => x * d)).length =
      (t₂.map (fun x => (1 - d) * x)).length) := by
    simpa using h
  unfold emaLeaf bcastOp
  rw [if_neg hlen]
  rcases t₁ with _ | ⟨a, t₁'⟩
  · rcases t₂ with _ | ⟨b, t₂'⟩
    · simp at h
    · rcases t₂' with _ | ⟨b', t₂''⟩
      · simp at h2
      · rfl
  · rcases t₁' with _ | ⟨a', t₁''⟩
    · simp at h1
    · rcases t₂ with _ | ⟨b, t₂'⟩
      · rfl
      · rcases t₂' with _ | ⟨b', t₂''⟩
        · simp at h2
        · rfl

/-- If some corresponding pair of leaves has lengths that broadcasting
cannot reconcile, zipping the leaf lists fails with some error. -/
lemma zipLeaves_error (d : ℚ) (ts₁ ts₂ : List Tensor) (t₁ t₂ : Tensor)
    (hmem : (t₁, t₂) ∈ List.zip ts₁ ts₂)
    (h : t₁.length ≠ t₂.length) (h1 : t₁.length ≠ 1) (h2 : t₂.length ≠ 1) :
    ∃ e, zipLeaves (emaLeaf d) ts₁ ts₂ = .error e := by
  induction ts₁ generalizing ts₂ with
  | nil => simp at hmem
  | cons u₁ r₁ ih =>
    cases ts₂ with
    | nil => simp at hmem
    | cons u₂ r₂ =>
      rw [List.zip_cons_cons, List.mem_cons] at hmem
      rcases hmem with heq | hmem
      · injection heq with ha hb
        subst ha
        subst hb
        refine ⟨.broadcastError, ?_⟩
        rw [zipLeaves, emaLeaf_error d t₁ t₂ h h1 h2]
        rfl
      · cases hf : emaLeaf d u₁ u₂ with
        | error e =>
          refine ⟨e, ?_⟩
          rw [zipLeaves, hf]
          rfl
        | ok t =>
          obtain ⟨e, he⟩ := ih r₂ hmem
          refine ⟨e, ?_⟩
          rw [zipLeaves, hf]
          show (zipLeaves (emaLeaf d) r₁ r₂).bind _ = _
          rw [he]
          rfl

/-- A successful `update` preserves the `decay` field. -/
lemma update_decay (s s' : EmaState) (v : Variables)
    (h : s.update v = .ok s') : s'.decay = s.decay := by
  unfold EmaState.update at h
  by_cases hd : s.decay = 0
  · rw [if_pos hd] at h
    injection h with h'
    rw [← h']
  · rw [if_neg hd] at h
    cases hv : s.variables_ with
    | none =>
      rw [hv] at h
      cases h
    | some v0 =>
      rw [hv] at h
      dsimp only at h
      cases ht : tree_multimap (emaLeaf s.decay) v0 v with
      | error e =>
        rw [ht] at h
        cases h
      | ok nv =>
        rw [ht] at h
        injection h with h'
        rw [← h']

/-- Folding `update` over any sequence of inputs preserves `decay`. -/
lemma runUpdates_decay (vs : List Variables) (s s' : EmaState)
    (h : runUpdates s vs = .ok s') : s'.decay = s.decay := by
  induction vs generalizing s with
  | nil =>
    unfold runUpdates at h
    injection h with h'
    rw [h']
  | cons v r ih =>
    unfold runUpdates at h ih
    rw [List.foldlM_cons] at h
    cases hu : s.update v with
    | error e =>
      rw [hu] at h
      cases h
    | ok s₁ =>
      rw [hu] at h
      have hr : List.foldlM EmaState.update s₁ r = .ok s' := h
      rw [ih s₁ hr, update_decay s s₁ v hu]

/-! ### Claims -/

/-- Claim C1: for every `EmaState` with nonzero decay and every
`new_live_parameters` mapping with the same key set and tensor shapes as the
shadow, `update` returns a state whose shadow maps every key `k` to
`decay * shadow[k] + (1 - decay) * new_live_parameters[k]`, elementwise. -/
theorem ema_update_smoothing (s : EmaState) (v new : Variables)
    (hd : s.decay ≠ 0) (hv : s.variables_ = some v)
    (hk : v.map Prod.fst = new.map Prod.fst)
    (hl : v.map (fun kt => kt.2.length) = new.map (fun kt => kt.2.length)) :
    s.update new = .ok ⟨s.decay, some (List.zipWith
      (fun kt nt =>
        (kt.1,
          List.zipWith (fun e p => s.decay * e + (1 - s.decay) * p) kt.2 nt.2))
      v new)⟩ := by
  unfold EmaState.update
  rw [if_neg hd, hv]
  dsimp only
  rw [tree_multimap_emaLeaf s.decay v new hk hl]
  rfl

/-- Witness for C1: the spec scenario `shadow = 2.0`, `decay = 0.9`,
`new_live = 12.0` yields `0.9*2.0 + 0.1*12.0 = 3.0`. -/
theorem ema_update_smoothing_witness :
    EmaState.update ⟨(9:ℚ)/10, some [("w", [2])]⟩ [("w", [12])] =
      .ok ⟨(9:ℚ)/10, some [("w", [3])]⟩ := by
  have h := ema_update_smoothing ⟨(9:ℚ)/10, some [("w", [2])]⟩
    [("w", [2])] [("w", [12])] (by norm_num) rfl rfl rfl
  rw [h]
  norm_num [List.zipWith]

/-- Claim C2: `EmaState.update` binds exactly one argument besides `self`,
so the two-argument invocation `ema.update(new_optimizer.target,
new_model_state)` in `train_step` does not conform and raises `TypeError`
for every state and every pair of arguments. -/
theorem train_step_update_call_arity (s : EmaState)
    (target model_state : Variables) :
    (∀ v : Variables, callUpdate s [v] = .ok (s.update v)) ∧
      callUpdate s [target, model_state] = .error .typeError :=
  ⟨fun _ => rfl, rfl⟩

/-- Claim C3: `create(0, P)` has an absent shadow, and `update` on any state
with zero decay returns a state with an absent shadow. -/
theorem ema_disabled_shadow_absent (P P2 : Variables) (s : EmaState)
    (h : s.decay = 0) :
    (EmaState.create 0 P).variables_ = none ∧
      s.update P2 = .ok ⟨0, none⟩ := by
  constructor
  · rfl
  · unfold EmaState.update
    rw [if_pos h, h]

/-- Witness for C3 at concrete inputs. -/
theorem ema_disabled_shadow_absent_witness :
    (EmaState.create 0 [("w", [2])]).variables_ = none ∧
      EmaState.update ⟨0, none⟩ [("w", [3])] = .ok ⟨0, none⟩ :=
  ema_disabled_shadow_absent [("w", [2])] [("w", [3])] ⟨0, none⟩ rfl

/-- Claim C4: for nonzero decay, `create`'s shadow equals `P` elementwise
exactly, and the shadow is independent of later changes to the live
parameters: it never equals any mutated mapping different from `P`. -/
theorem ema_create_shadow_copy (d : ℚ) (P Pmut : Variables)
    (hd : d ≠ 0) (hne : Pmut ≠ P) :
    (EmaState.create d P).variables_ = some P ∧
      (EmaState.create d P).variables_ ≠ some Pmut := by
  have h1 : (EmaState.create d P).variables_ = some P := by
    unfold EmaState.create
    rw [if_neg hd]
    show some (tree_map (fun x => x) P) = some P
    unfold tree_map
    simp
  refine ⟨h1, ?_⟩
  rw [h1]
  intro hc
  injection hc with hc'
  exact hne hc'.symm

/-- Witness for C4 at concrete inputs. -/
theorem ema_create_shadow_copy_witness :
    (EmaState.create ((1:ℚ)/2) [("w", [2])]).variables_ = some [("w", [2])] ∧
      (EmaState.create ((1:ℚ)/2) [("w", [2])]).variables_ ≠
        some [("w", [99])] :=
  ema_create_shadow_copy ((1:ℚ)/2) [("w", [2])] [("w", [99])]
    (by norm_num) (by decide)

/-- Counterexample to C5: a shape mismatch between a length-2 shadow tensor
and a length-1 live tensor is silently broadcast — `update` succeeds with
`0.5*1 + 0.5*10 = 5.5` and `0.5*2 + 0.5*10 = 6` — instead of failing. -/
theorem ema_update_mismatch_counterexample :
    EmaState.update ⟨(1:ℚ)/2, some [("w", [1, 2])]⟩ [("w", [10])] =
      .ok ⟨(1:ℚ)/2, some [("w", [(11:ℚ)/2, 6])]⟩ := by
  have hb : emaLeaf ((1:ℚ)/2) [1, 2] [10] = .ok [(11:ℚ)/2, 6] := by
    unfold emaLeaf bcastOp
    norm_num
  unfold EmaState.update
  rw [if_neg (by norm_num :
    ¬((⟨(1:ℚ)/2, some [("w", [(1:ℚ), 2])]⟩ : EmaState).decay = 0))]
  dsimp only
  simp only [tree_multimap, zipLeaves, List.map_cons, List.map_nil, hb]
  rw [if_true]
  rfl

/-- Amended C5: on an enabled state, `update` fails when the key sets
differ, and when some pair of corresponding tensors has lengths that
broadcasting cannot reconcile (lengths differ and neither is 1); a length-1
operand, however, is broadcast rather than rejected. -/
theorem ema_update_structure_mismatch (s : EmaState) (v new : Variables)
    (t₁ t₂ : Tensor) (hd : s.decay ≠ 0) (hv : s.variables_ = some v)
    (hbad : v.map Prod.fst ≠ new.map Prod.fst ∨
      ((t₁, t₂) ∈ List.zip (v.map Prod.snd) (new.map Prod.snd) ∧
        t₁.length ≠ t₂.length ∧ t₁.length ≠ 1 ∧ t₂.length ≠ 1)) :
    ∃ e : EmaError, s.update new = .error e := by
  unfold EmaState.update
  rw [if_neg hd, hv]
  dsimp only
  rcases hbad with hk | ⟨hmem, hlen, h1, h2⟩
  · refine ⟨.treeStructureMismatch, ?_⟩
    rw [tree_multimap, if_neg hk]
    rfl
  · by_cases hk : v.map Prod.fst = new.map Prod.fst
    · obtain ⟨e, he⟩ := zipLeaves_error s.decay _ _ t₁ t₂ hmem hlen h1 h2
      refine ⟨e, ?_⟩
      rw [tree_multimap, if_pos hk, he]
      rfl
    · refine ⟨.treeStructureMismatch, ?_⟩
      rw [tree_multimap, if_neg hk]
      rfl

/-- Witness for the amended C5: a key mismatch makes `update` fail. -/
theorem ema_update_structure_mismatch_witness :
    ∃ e : EmaError,
      EmaState.update ⟨(1:ℚ)/2, some [("w", [1])]⟩ [("v", [1])] =
        .error e :=
  ema_update_structure_mismatch ⟨(1:ℚ)/2, some [("w", [1])]⟩ [("w", [1])]
    [("v", [1])] [] [] (by norm_num) rfl (Or.inl (by decide))

/-- Claim C6: every successful `update` — and hence every successful
sequence of updates — preserves `decay`, so a state never transitions
between the disabled (`decay = 0`) and enabled (`decay ≠ 0`) modes. -/
theorem ema_update_preserves_decay (s : EmaState) (vs : List Variables)
    (s' : EmaState) (h : runUpdates s vs = .ok s') :
    s'.decay = s.decay ∧ (s.decay = 0 ↔ s'.decay = 0) := by
  have hd := runUpdates_decay vs s s' h
  exact ⟨hd, by rw [hd]⟩

/-- Witness for C6: one concrete update step keeps `decay = 1/2`. -/
theorem ema_update_preserves_decay_witness :
    ((⟨(1:ℚ)/2, some [("w", [5])]⟩ : EmaState).decay =
        (⟨(1:ℚ)/2, some [("w", [0])]⟩ : EmaState).decay) ∧
      ((⟨(1:ℚ)/2, some [("w", [0])]⟩ : EmaState).decay = 0 ↔
        (⟨(1:ℚ)/2, some [("w", [5])]⟩ : EmaState).decay = 0) :=
  by
  have hu : EmaState.update ⟨(1:ℚ)/2, some [("w", [0])]⟩ [("w", [10])] =
      .ok ⟨(1:ℚ)/2, some [("w", [5])]⟩ := by
    unfold EmaState.update
    rw [if_neg (by norm_num :
      ¬((⟨(1:ℚ)/2, some [("w", [(0:ℚ)])]⟩ : EmaState).decay = 0))]
    dsimp only
    rw [tree_multimap_emaLeaf ((1:ℚ)/2) [("w", [0])] [("w", [10])]
      (by simp) (by simp)]
    norm_num [List.zipWith]
    rfl
  exact ema_update_preserves_decay ⟨(1:ℚ)/2, some [("w", [0])]⟩
    [[("w", [10])]] ⟨(1:ℚ)/2, some [("w", [5])]⟩
    (by simp only [runUpdates, List.foldlM_cons, List.foldlM_nil, hu]; rfl)

/-- Claim C7: when the live parameters equal the shadow exactly, `update`
returns the state unchanged: the shadow is a fixed point, since
`decay*x + (1-decay)*x = x`. -/
theorem ema_update_fixed_point (s : EmaState) (v : Variables)
    (hd : s.decay ≠ 0) (hv : s.variables_ = some v) :
    s.update v = .ok s := by
  unfold EmaState.update
  rw [if_neg hd, hv]
  dsimp only
  rw [tree_multimap_emaLeaf_self]
  have hs : EmaState.mk s.decay (some v) = s := by rw [← hv]
  exact congrArg Except.ok hs

/-- Witness for C7 at a concrete enabled state. -/
theorem ema_update_fixed_point_witness :
    EmaState.update ⟨(9:ℚ)/10, some [("w", [2, 5])]⟩ [("w", [2, 5])] =
      .ok ⟨(9:ℚ)/10, some [("w", [2, 5])]⟩ :=
  ema_update_fixed_point ⟨(9:ℚ)/10, some [("w", [2, 5])]⟩ [("w", [2, 5])]
    (by norm_num) rfl

/-- Claim C8: `update` is a pure, deterministic function of its two inputs:
equal inputs always give equal outputs, and the input state is never
mutated (the embedding is functional, so the result is a fresh value). -/
theorem ema_update_deterministic (s₁ s₂ : EmaState) (v₁ v₂ : Variables)
    (hs : s₁ = s₂) (hv : v₁ = v₂) :
    s₁.update v₁ = s₂.update v₂ := by
  rw [hs, hv]

/-- Witness for C8: two identical calls agree. -/
theorem ema_update_deterministic_witness :
    EmaState.update ⟨(1:ℚ)/2, some [("w", [2])]⟩ [("w", [4])] =
      EmaState.update ⟨(1:ℚ)/2, some [("w", [2])]⟩ [("w", [4])] :=
  ema_update_deterministic _ _ _ _ rfl rfl

/-- Claim C9: `EmaState.create` binds exactly two arguments, so the
three-argument invocation `EmaState.create(config.ema_decay,
optimizer.target, model_state)` in `create_train_state` raises `TypeError`
for every configuration, including `ema_decay = 0`. -/
theorem create_train_state_create_call_arity (ema_decay : ℚ)
    (target model_state : Variables) :
    (∀ (d0 : ℚ) (v : Variables),
        callCreate [.decayArg d0, .varsArg v] = .ok (EmaState.create d0 v)) ∧
      createTrainStateEmaCall ema_decay target model_state =
        .error .typeError :=
  ⟨fun _ _ => rfl, rfl⟩

/-- Claim C10: `EmaState` declares only `decay` and `variables`, so the
attribute reads `state.ema.params` and `state.ema.model_state` in
`eval_step_ema` raise `AttributeError` on every state. -/
theorem eval_step_ema_attribute_error (s : EmaState) :
    s.getattr "params" = .error .attributeError ∧
      s.getattr "model_state" = .error .attributeError := by
  constructor <;> rfl
